import Mathlib

/-!
Verification of the zkVM dispatch shim of the `uint` crate
(`src/support/zkvm.rs`).

The file shallowly embeds the shim: a fixed-width unsigned integer value is
an ordered sequence of machine-word limbs (least-significant first), and each
trait-level operation branches on the compile-time bit width `BITS`,
delegating to a foreign routine exactly when `BITS = 256` and otherwise
computing limb-wise on the limbs directly.  The foreign routines themselves
are only declared in the source (they are supplied by the embedding zkVM), so
their behaviour is modelled from the specification contract: bit-for-bit
agreement with the generic limb-wise path.  The dispatch functions are kept
parametric in the foreign routine so that reachability of the foreign path
can be stated as: the result depends on the routine exactly when `BITS = 256`.
-/

namespace ZkvmUint

/-- A fixed-width unsigned integer value of the `uint` crate: an ordered
sequence of machine-word limbs, least-significant first.  `BITS` is the
compile-time bit width and `LIMBS` the compile-time limb count; the shim
dispatches on `BITS` alone. -/
structure Uint (BITS LIMBS : Nat) where
  limbs : List Nat
  limbs_length : limbs.length = LIMBS

theorem Uint.ext_limbs {BITS LIMBS : Nat} {a b : Uint BITS LIMBS}
    (h : a.limbs = b.limbs) : a = b := by
  cases a; cases b; cases h; rfl

instance {BITS LIMBS : Nat} : DecidableEq (Uint BITS LIMBS) := fun a b =>
  if h : a.limbs = b.limbs then .isTrue (Uint.ext_limbs h)
  else .isFalse (fun hc => h (by cases hc; rfl))

/-- Modelled from the spec: `Self::ZERO` is defined outside this file in the
surrounding crate; the spec requires it to be the canonical all-zero instance
of the same width, suppliable by the surrounding type. -/
def Uint.zero (BITS LIMBS : Nat) : Uint BITS LIMBS :=
  ⟨List.replicate LIMBS 0, by simp⟩

/-- Modelled from the spec: the foreign routine `eq_impl` is only declared in
the source (its body is supplied by the zkVM); the spec requires it to agree
with generic limb-wise equality for every bit pattern. -/
def eq_impl (a b : List Nat) : Bool := a == b

/-- Modelled from the spec: the foreign routine `clone_impl` is only declared
in the source; the spec requires it to store through the result address an
independent, equal-by-value copy of the 256-bit value at `a`, with `zero` a
known-zero scratch value it may read.  The returned list is the limb sequence
the routine writes through the result address. -/
def clone_impl (a zero : List Nat) : List Nat := a

/-- Lexicographic comparison of limb sequences, most-significant limb first
once the lists are reversed. -/
def lexCmp : List Nat → List Nat → Ordering
  | [], [] => .eq
  | [], _ :: _ => .lt
  | _ :: _, [] => .gt
  | a :: as, b :: bs =>
    match compare a b with
    | .eq => lexCmp as bs
    | o => o

/-- Generic limb-wise unsigned ordering: compare limb sequences starting from
the most-significant limb (the limbs are stored least-significant first, so
the reversed lists are compared lexicographically). -/
def genericCmp (a b : List Nat) : Ordering := lexCmp a.reverse b.reverse

/-- Modelled from the spec: the foreign routine `cmp_impl` is only declared in
the source; the spec requires it to agree with generic limb-wise unsigned
ordering. -/
def cmp_impl (a b : List Nat) : Ordering := genericCmp a b

/-- Dispatch structure of `Clone::clone` (src/support/zkvm.rs, lines 44-59),
abstracted over the foreign routine the accelerated branch invokes: when
`BITS = 256` the routine receives the source limbs and the limbs of
`Self::ZERO` and its output becomes the result; otherwise the result is the
plain limb copy `Self { limbs: self.limbs }`. -/
def cloneDispatch (BITS LIMBS : Nat) (impl : List Nat → List Nat → List Nat)
    (limbs : List Nat) : List Nat :=
  if BITS = 256 then impl limbs (Uint.zero BITS LIMBS).limbs else limbs

/-- Dispatch structure of `PartialEq::eq` (src/support/zkvm.rs, lines 61-74),
abstracted over the foreign routine: when `BITS = 256` the routine receives
both limb sequences; otherwise the result is `self.limbs == other.limbs`. -/
def eqDispatch (BITS : Nat) (impl : List Nat → List Nat → Bool)
    (a b : List Nat) : Bool :=
  if BITS = 256 then impl a b else a == b

/-- Dispatch structure of the trait-level three-way comparison, abstracted
over the foreign routine.  Modelled from the spec: the ordering impl itself is
not in the source file (only the `cmp_impl` declaration is); per the spec it
follows the identical pattern, branching on the bit width and performing
generic limb-wise unsigned ordering off the accelerated width. -/
def cmpDispatch (BITS : Nat) (impl : List Nat → List Nat → Ordering)
    (a b : List Nat) : Ordering :=
  if BITS = 256 then impl a b else genericCmp a b

/-- `Clone::clone` for `Uint<BITS, LIMBS>`: the dispatch instantiated with the
(spec-modelled) foreign routine `clone_impl`. -/
def Uint.clone {BITS LIMBS : Nat} (a : Uint BITS LIMBS) : Uint BITS LIMBS :=
  ⟨cloneDispatch BITS LIMBS clone_impl a.limbs, by
    unfold cloneDispatch clone_impl
    split <;> simp [a.limbs_length]⟩

/-- `PartialEq::eq` for `Uint<BITS, LIMBS>`: the dispatch instantiated with
the (spec-modelled) foreign routine `eq_impl`. -/
def Uint.eq {BITS LIMBS : Nat} (a b : Uint BITS LIMBS) : Bool :=
  eqDispatch BITS eq_impl a.limbs b.limbs

/-- Three-way comparison for `Uint<BITS, LIMBS>`: the dispatch instantiated
with the (spec-modelled) foreign routine `cmp_impl`. -/
def Uint.cmp {BITS LIMBS : Nat} (a b : Uint BITS LIMBS) : Ordering :=
  cmpDispatch BITS cmp_impl a.limbs b.limbs

/-- `Copy` for `Uint<BITS, LIMBS>` (src/support/zkvm.rs, line 42): duplication
by a plain bitwise copy of the limb array, defined for every width and never
involving any foreign routine. -/
def Uint.copy {BITS LIMBS : Nat} (a : Uint BITS LIMBS) : Uint BITS LIMBS :=
  ⟨a.limbs, a.limbs_length⟩

/-- Kind of one argument of a foreign routine: an output address of a 256-bit
limb buffer, an input address of a 256-bit limb buffer, or a plain scalar
value passed by value (no routine in the source uses the scalar kind; it is
present so that the absence of scalar shift amounts is expressible). -/
inductive ArgKind
  | outAddr
  | inAddr
  | scalar
deriving DecidableEq

/-- Return kind of a foreign routine: nothing, a boolean, or a three-state
ordering. -/
inductive RetKind
  | unit
  | bool
  | ordering
deriving DecidableEq

/-- Signature of one foreign routine: its link name, the kinds of its
arguments in order, and its return kind. -/
structure ForeignSig where
  name : String
  args : List ArgKind
  ret : RetKind
deriving DecidableEq

/-- The foreign-routine set declared in src/support/zkvm.rs, lines 15-40,
transcribed declaration by declaration: each `*mut u8` result pointer is an
output address, each `*const u8` operand pointer is an input address of a
256-bit limb buffer. -/
def foreignSigs : List ForeignSig :=
  [⟨"wrapping_add_impl", [ArgKind.outAddr, ArgKind.inAddr, ArgKind.inAddr], RetKind.unit⟩,
   ⟨"wrapping_sub_impl", [ArgKind.outAddr, ArgKind.inAddr, ArgKind.inAddr], RetKind.unit⟩,
   ⟨"wrapping_mul_impl", [ArgKind.outAddr, ArgKind.inAddr, ArgKind.inAddr], RetKind.unit⟩,
   ⟨"bitxor_impl", [ArgKind.outAddr, ArgKind.inAddr, ArgKind.inAddr], RetKind.unit⟩,
   ⟨"bitand_impl", [ArgKind.outAddr, ArgKind.inAddr, ArgKind.inAddr], RetKind.unit⟩,
   ⟨"bitor_impl", [ArgKind.outAddr, ArgKind.inAddr, ArgKind.inAddr], RetKind.unit⟩,
   ⟨"wrapping_shl_impl", [ArgKind.outAddr, ArgKind.inAddr, ArgKind.inAddr], RetKind.unit⟩,
   ⟨"wrapping_shr_impl", [ArgKind.outAddr, ArgKind.inAddr, ArgKind.inAddr], RetKind.unit⟩,
   ⟨"arithmetic_shr_impl", [ArgKind.outAddr, ArgKind.inAddr, ArgKind.inAddr], RetKind.unit⟩,
   ⟨"eq_impl", [ArgKind.inAddr, ArgKind.inAddr], RetKind.bool⟩,
   ⟨"cmp_impl", [ArgKind.inAddr, ArgKind.inAddr], RetKind.ordering⟩,
   ⟨"clone_impl", [ArgKind.outAddr, ArgKind.inAddr, ArgKind.inAddr], RetKind.unit⟩]

/-- A routine other than equality and comparison returns nothing and has
exactly one output address, the first argument, followed by two input
addresses. -/
def sigOtherOk (s : ForeignSig) : Bool :=
  s.name == "eq_impl" || s.name == "cmp_impl" ||
    (s.ret == RetKind.unit &&
      s.args == [ArgKind.outAddr, ArgKind.inAddr, ArgKind.inAddr])

/-- No argument of the routine is a plain scalar. -/
def sigNoScalar (s : ForeignSig) : Bool :=
  s.args.all (fun k => k != ArgKind.scalar)

/-- Abstract addresses handed across the foreign boundary in the accelerated
clone path: the freshly allocated `MaybeUninit` output buffer, the source
value `self.limbs`, and the reference to `Self::ZERO`.  These are three
distinct stack or constant locations in the source. -/
inductive Addr
  | output
  | source
  | zeroRef
deriving DecidableEq

/-- State of one storage location: not allocated, allocated but
uninitialized, or initialized with a limb sequence. -/
inductive Cell
  | dead
  | uninit
  | init (v : List Nat)
deriving DecidableEq

/-- Reading a location succeeds only when it is initialized. -/
def readInit : Cell → Option (List Nat)
  | .init v => some v
  | _ => none

/-- One step of the accelerated clone body: allocate uninitialized storage
(`MaybeUninit::uninit`), call the foreign clone routine with a result address
and two input addresses, or treat a location as initialized
(`assume_init`). -/
inductive CloneStep
  | allocUninit (dst : Addr)
  | callCloneImpl (result a zero : Addr)
  | assumeInit (dst : Addr)
deriving DecidableEq

/-- Small-step semantics of a clone-body step over abstract memory.  The
foreign call requires both input locations to be initialized and the result
location to be allocated, and fully populates the result with the routine's
output; `assume_init` is valid only on an initialized location and fails
(returns none, the model of undefined behavior) otherwise. -/
def execStep (m : Addr → Cell) : CloneStep → Option (Addr → Cell)
  | .allocUninit d => some fun x => if x = d then Cell.uninit else m x
  | .callCloneImpl r a z =>
    match readInit (m a), readInit (m z) with
    | some va, some vz =>
      if m r = Cell.dead then none
      else some fun x => if x = r then Cell.init (clone_impl va vz) else m x
    | _, _ => none
  | .assumeInit d =>
    match readInit (m d) with
    | some _ => some m
    | none => none

/-- Run a straight-line sequence of clone-body steps. -/
def runSteps (m : Addr → Cell) : List CloneStep → Option (Addr → Cell)
  | [] => some m
  | s :: rest =>
    match execStep m s with
    | some m2 => runSteps m2 rest
    | none => none

/-- The accelerated clone body as written in the source, lines 46-55:
allocate the `MaybeUninit` output, call `clone_impl` with the output address,
the source address and the address of `Self::ZERO`, and only then
`assume_init` the output. -/
def cloneAccelBody : List CloneStep :=
  [CloneStep.allocUninit Addr.output,
   CloneStep.callCloneImpl Addr.output Addr.source Addr.zeroRef,
   CloneStep.assumeInit Addr.output]

/-- Initial memory of the accelerated clone body: the output buffer does not
exist yet, the source holds the source limbs, and the zero reference holds
the limbs of `Self::ZERO`. -/
def initMem (src zero : List Nat) : Addr → Cell
  | .output => Cell.dead
  | .source => Cell.init src
  | .zeroRef => Cell.init zero

/-- Result of the accelerated clone body: run the steps, then read the limb
sequence of the now-initialized output buffer. -/
def cloneAccelRun (src zero : List Nat) : Option (List Nat) :=
  match runSteps (initMem src zero) cloneAccelBody with
  | some m => readInit (m Addr.output)
  | none => none

/-- A foreign-call step passes an output address distinct from both input
addresses. -/
def callArgsDistinct : CloneStep → Bool
  | .callCloneImpl r a z => r != a && r != z
  | _ => true

/-- Overwrite one location with an initialized limb sequence, the model of
mutating that location's storage. -/
def writeCell (m : Addr → Cell) (d : Addr) (v : List Nat) : Addr → Cell :=
  fun x => if x = d then Cell.init v else m x

/-- Sample one-limb 64-bit value. -/
def s64 : Uint 64 1 := ⟨[3], rfl⟩

/-- Another sample one-limb 64-bit value. -/
def s64b : Uint 64 1 := ⟨[7], rfl⟩

/-- A third sample one-limb 64-bit value. -/
def s64c : Uint 64 1 := ⟨[9], rfl⟩

/-- Sample four-limb 256-bit value, the representation of 1. -/
def s256 : Uint 256 4 := ⟨[1, 0, 0, 0], rfl⟩

/-- C1: for every pair of 256-bit values, the operation results produced
through the (spec-modelled) foreign routines are bit-for-bit identical to the
generic limb-wise path: `eq` via `eq_impl` agrees with limb-wise equality of
the limb arrays, and `clone` via `clone_impl` yields the same value as the
generic limb copy. -/
theorem accel_paths_agree (LIMBS : Nat) (a b : Uint 256 LIMBS) :
    Uint.eq a b = (a.limbs == b.limbs) ∧ Uint.clone a = Uint.copy a := by
  constructor
  · show eqDispatch 256 eq_impl a.limbs b.limbs = (a.limbs == b.limbs)
    unfold eqDispatch eq_impl
    simp
  · apply Uint.ext_limbs
    show cloneDispatch 256 LIMBS clone_impl a.limbs = a.limbs
    unfold cloneDispatch clone_impl
    simp

/-- C2: the foreign routine is reached if and only if `BITS = 256`.  For any
other width the dispatch result is the generic limb-wise one, independent of
whatever foreign routine is supplied; at width 256 the dispatch result is
exactly the supplied foreign routine's output. -/
theorem foreign_reached_iff_accel_width (BITS LIMBS : Nat) (h : BITS ≠ 256)
    (implC : List Nat → List Nat → List Nat)
    (implE : List Nat → List Nat → Bool) (l a b : List Nat) :
    cloneDispatch BITS LIMBS implC l = l
    ∧ eqDispatch BITS implE a b = (a == b)
    ∧ cloneDispatch 256 LIMBS implC l = implC l (Uint.zero 256 LIMBS).limbs
    ∧ eqDispatch 256 implE a b = implE a b := by
  refine ⟨?_, ?_, ?_, ?_⟩ <;> simp [cloneDispatch, eqDispatch, h]

theorem foreign_reached_iff_accel_width_witness :
    (64 ≠ 256)
    ∧ cloneDispatch 64 1 (fun x _ => x ++ x) [5] = [5]
    ∧ eqDispatch 64 (fun _ _ => false) [5] [5] = true
    ∧ cloneDispatch 256 1 (fun x _ => x ++ x) [5] = [5, 5]
    ∧ eqDispatch 256 (fun _ _ => false) [5] [5] = false := by
  have h := foreign_reached_iff_accel_width 64 1 (by decide)
    (fun x _ => x ++ x) (fun _ _ => false) [5] [5] [5]
  exact ⟨by decide, h.1, h.2.1, h.2.2.1, h.2.2.2⟩

/-- C3: for every value of any width, `clone` produces a copy equal by value
to the source; and in the memory model of the accelerated path, running the
clone body leaves the source location's limb sequence unchanged, and
subsequently mutating the duplicate's storage (writing any `w` to the output
location) still leaves the source unchanged. -/
theorem clone_equal_and_source_unchanged (BITS LIMBS : Nat)
    (v : Uint BITS LIMBS) (src zero w : List Nat) :
    Uint.clone v = v
    ∧ (runSteps (initMem src zero) cloneAccelBody).map (fun m => m Addr.source)
        = some (Cell.init src)
    ∧ (runSteps (initMem src zero) cloneAccelBody).map
        (fun m => writeCell m Addr.output w Addr.source)
        = some (Cell.init src) := by
  refine ⟨?_, rfl, rfl⟩
  apply Uint.ext_limbs
  show cloneDispatch BITS LIMBS clone_impl v.limbs = v.limbs
  unfold cloneDispatch clone_impl
  split <;> rfl

/-- C4: for every pair of values of a width other than 256, `eq` returns true
if and only if the two limb sequences are element-wise equal. -/
theorem generic_eq_iff_limbwise (BITS LIMBS : Nat) (h : BITS ≠ 256)
    (a b : Uint BITS LIMBS) :
    Uint.eq a b = true ↔ a.limbs = b.limbs := by
  unfold Uint.eq eqDispatch
  simp [h]

theorem generic_eq_iff_limbwise_witness :
    (64 ≠ 256) ∧ (Uint.eq s64c s64c = true ↔ s64c.limbs = s64c.limbs) :=
  ⟨by decide, generic_eq_iff_limbwise 64 1 (by decide) s64c s64c⟩

/-- C5: the three-way comparison (modelled from the spec, since only the
`cmp_impl` declaration is in the source file) branches on the compile-time
bit width, hands the operands to the foreign routine exactly at width 256,
and its result agrees with generic limb-wise unsigned ordering for every pair
of values of every width. -/
theorem cmp_dispatch_agrees_generic (BITS LIMBS : Nat) (a b : Uint BITS LIMBS)
    (impl : List Nat → List Nat → Ordering) (x y : List Nat) :
    Uint.cmp a b = genericCmp a.limbs b.limbs
    ∧ cmpDispatch 256 impl x y = impl x y := by
  constructor
  · show cmpDispatch BITS cmp_impl a.limbs b.limbs = genericCmp a.limbs b.limbs
    unfold cmpDispatch cmp_impl
    split <;> rfl
  · unfold cmpDispatch
    simp

/-- C6: the foreign-routine set has exactly the declared shapes: the equality
routine takes two input addresses and returns a boolean, the comparison
routine takes two input addresses and returns a three-state ordering, every
other routine returns nothing and takes one output address (first) followed
by two input addresses, no routine takes a plain scalar argument, and in
particular each shift routine receives its shift amount as the address of a
256-bit operand, not as a scalar. -/
theorem foreign_signature_shapes :
    (foreignSigs.any fun s => s.name == "eq_impl"
      && s.args == [ArgKind.inAddr, ArgKind.inAddr]
      && s.ret == RetKind.bool) = true
    ∧ (foreignSigs.any fun s => s.name == "cmp_impl"
      && s.args == [ArgKind.inAddr, ArgKind.inAddr]
      && s.ret == RetKind.ordering) = true
    ∧ foreignSigs.all sigOtherOk = true
    ∧ foreignSigs.all sigNoScalar = true
    ∧ (foreignSigs.any fun s => s.name == "wrapping_shl_impl"
      && s.args == [ArgKind.outAddr, ArgKind.inAddr, ArgKind.inAddr]) = true
    ∧ (foreignSigs.any fun s => s.name == "wrapping_shr_impl"
      && s.args == [ArgKind.outAddr, ArgKind.inAddr, ArgKind.inAddr]) = true
    ∧ (foreignSigs.any fun s => s.name == "arithmetic_shr_impl"
      && s.args == [ArgKind.outAddr, ArgKind.inAddr, ArgKind.inAddr]) = true := by
  refine ⟨?_, ?_, ?_, ?_, ?_, ?_, ?_⟩ <;> decide

/-- C7: in the memory model of the accelerated clone path, the body as
written (allocate, call, `assume_init`) runs successfully and yields the
source limbs; every foreign-call step passes an output address distinct from
both input addresses; and treating the output as initialized before the
foreign call has run fails (the reordered body is undefined behavior in the
model), so `assume_init` is valid only after the call has returned. -/
theorem accel_clone_memory_discipline (src zero : List Nat) :
    cloneAccelRun src zero = some src
    ∧ cloneAccelBody.all callArgsDistinct = true
    ∧ runSteps (initMem src zero)
        [CloneStep.allocUninit Addr.output, CloneStep.assumeInit Addr.output,
         CloneStep.callCloneImpl Addr.output Addr.source Addr.zeroRef]
        = none := by
  exact ⟨rfl, rfl, rfl⟩

/-- C8: the accelerated clone dispatch passes the limb sequence of the
canonical all-zero value of the same width as the third argument of the
foreign clone routine, for every source limb sequence and every supplied
routine; and that zero value's limbs are exactly `LIMBS` zero words. -/
theorem accel_clone_zero_argument (LIMBS : Nat)
    (impl : List Nat → List Nat → List Nat) (l : List Nat) :
    cloneDispatch 256 LIMBS impl l = impl l (Uint.zero 256 LIMBS).limbs
    ∧ (Uint.zero 256 LIMBS).limbs = List.replicate LIMBS 0 := by
  constructor
  · unfold cloneDispatch
    simp
  · rfl

/-- C9: `Copy` duplication is defined for every width, including 256, as the
plain bitwise copy of the limb array and never involves a foreign routine;
and for any width other than 256, `Clone::clone` returns exactly
`Self { limbs: self.limbs }`, bitwise identical to the `Copy` duplicate. -/
theorem copy_unconditional_clone_generic (BITS LIMBS B2 L2 : Nat)
    (b : Uint B2 L2) (h : BITS ≠ 256) (a : Uint BITS LIMBS) :
    Uint.copy b = b
    ∧ Uint.clone a = Uint.copy a
    ∧ (Uint.clone a).limbs = a.limbs := by
  have hcl : (Uint.clone a).limbs = a.limbs := by
    show cloneDispatch BITS LIMBS clone_impl a.limbs = a.limbs
    unfold cloneDispatch
    simp [h]
  exact ⟨Uint.ext_limbs rfl, Uint.ext_limbs hcl, hcl⟩

theorem copy_unconditional_clone_generic_witness :
    (64 ≠ 256)
    ∧ Uint.copy s256 = s256
    ∧ Uint.clone s64b = Uint.copy s64b
    ∧ (Uint.clone s64b).limbs = s64b.limbs := by
  have h := copy_unconditional_clone_generic 64 1 256 4 s256 (by decide) s64b
  exact ⟨by decide, h.1, h.2.1, h.2.2⟩

/-- C10: for every width other than 256, the equality operation is an
equivalence relation over values: reflexive, symmetric and transitive, since
it reduces to element-wise equality of the limb arrays.  (The `Eq` marker
impl on line 76 carries no code; it asserts this totality for all widths.) -/
theorem generic_eq_equivalence (BITS LIMBS : Nat) (h : BITS ≠ 256) :
    (∀ a : Uint BITS LIMBS, Uint.eq a a = true)
    ∧ (∀ a b : Uint BITS LIMBS, Uint.eq a b = true → Uint.eq b a = true)
    ∧ (∀ a b c : Uint BITS LIMBS,
        Uint.eq a b = true → Uint.eq b c = true → Uint.eq a c = true) := by
  have key : ∀ a b : Uint BITS LIMBS, Uint.eq a b = true ↔ a.limbs = b.limbs := by
    intro a b
    unfold Uint.eq eqDispatch
    simp [h]
  refine ⟨?_, ?_, ?_⟩
  · intro a
    exact (key a a).mpr rfl
  · intro a b hab
    exact (key b a).mpr ((key a b).mp hab).symm
  · intro a b c hab hbc
    exact (key a c).mpr (((key a b).mp hab).trans ((key b c).mp hbc))

theorem generic_eq_equivalence_witness :
    (64 ≠ 256) ∧ Uint.eq s64 s64 = true :=
  ⟨by decide, (generic_eq_equivalence 64 1 (by decide)).1 s64⟩

end ZkvmUint
